import Mathlib

/-!
Verification of the pair-trading system (RSI indicator, strategy signal
generation, backtest portfolio ledger, live-driver decision logic).

The Python sources are shallowly embedded:
prices and cash are exact rationals; pandas float columns that can hold
NaN or infinities (indicator outputs) are embedded as the type PFloat
below, whose arithmetic and comparisons follow IEEE-754 special-value
rules (comparisons with NaN are false, division of a positive finite
value by zero is +infinity, 0/0 is NaN).
-/

/-- Scalar value of a pandas float column: NaN, plus or minus infinity,
or a finite (exact rational) value. -/
inductive PFloat where
  | nan : PFloat
  | pinf : PFloat
  | ninf : PFloat
  | fin : ℚ → PFloat
deriving DecidableEq, Repr

namespace PFloat

/-- IEEE negation. -/
def neg : PFloat → PFloat
  | nan => nan
  | pinf => ninf
  | ninf => pinf
  | fin a => fin (-a)

/-- IEEE addition restricted to the values PFloat represents. -/
def add : PFloat → PFloat → PFloat
  | nan, _ => nan
  | _, nan => nan
  | pinf, ninf => nan
  | pinf, _ => pinf
  | ninf, pinf => nan
  | ninf, _ => ninf
  | fin _, pinf => pinf
  | fin _, ninf => ninf
  | fin a, fin b => fin (a + b)

/-- IEEE subtraction. -/
def sub (x y : PFloat) : PFloat := add x (neg y)

/-- IEEE division (signed zero collapsed to 0; inputs here never carry a
negative zero). -/
def div : PFloat → PFloat → PFloat
  | nan, _ => nan
  | _, nan => nan
  | pinf, pinf => nan
  | pinf, ninf => nan
  | ninf, pinf => nan
  | ninf, ninf => nan
  | pinf, fin b => if b < 0 then ninf else pinf
  | ninf, fin b => if b < 0 then pinf else ninf
  | fin _, pinf => fin 0
  | fin _, ninf => fin 0
  | fin a, fin b =>
      if b = 0 then (if a = 0 then nan else if a < 0 then ninf else pinf)
      else fin (a / b)

/-- IEEE strict less-than: any comparison involving NaN is false. -/
def ltB : PFloat → PFloat → Bool
  | nan, _ => false
  | _, nan => false
  | ninf, ninf => false
  | ninf, _ => true
  | _, ninf => false
  | pinf, _ => false
  | fin _, pinf => true
  | fin a, fin b => decide (a < b)

/-- IEEE less-or-equal: any comparison involving NaN is false. -/
def leB : PFloat → PFloat → Bool
  | nan, _ => false
  | _, nan => false
  | ninf, _ => true
  | pinf, pinf => true
  | pinf, _ => false
  | fin _, pinf => true
  | fin _, ninf => false
  | fin a, fin b => decide (a ≤ b)

/-- IEEE strict greater-than. -/
def gtB (x y : PFloat) : Bool := ltB y x

end PFloat

/-!
Indicator: calculate_rsi, embedded from src/backtest_pair.py lines 10-17
(the byte-identical copies live in src/backtest_final_rsp_vgt.py lines
12-19, src/run_live_pair.py lines 7-13 and
src/strategies/rsi_pair_strategy.py lines 24-31):

    delta = prices.diff()
    gain = (delta.where(delta > 0, 0)).rolling(window=period).mean()
    loss = (-delta.where(delta < 0, 0)).rolling(window=period).mean()
    rs = gain / loss
    rsi = 100 - (100 / (1 + rs))

prices.diff() puts NaN at index 0; Series.where(cond, 0) replaces every
entry whose condition is false (NaN compares false) by 0;
rolling(window=n).mean() is NaN until the window is full.
-/

/-- Embeds prices.diff(): NaN at index 0, then successive differences. -/
def seriesDiff (prices : List ℚ) : List PFloat :=
  match prices with
  | [] => []
  | _ :: rest => PFloat.nan :: List.zipWith (fun b a => PFloat.fin (b - a)) rest prices

/-- Embeds delta.where(delta > 0, 0): the positive part of the first
difference (a NaN delta compares false, hence becomes 0). -/
def gainSeries (prices : List ℚ) : List PFloat :=
  (seriesDiff prices).map (fun d => if PFloat.ltB (.fin 0) d then d else .fin 0)

/-- Embeds -delta.where(delta < 0, 0): the negated negative part of the
first difference. -/
def lossSeries (prices : List ℚ) : List PFloat :=
  (seriesDiff prices).map (fun d => PFloat.neg (if PFloat.ltB d (.fin 0) then d else .fin 0))

/-- Sum of a PFloat list (NaN-propagating). -/
def PFloat.sum (xs : List PFloat) : PFloat := xs.foldl PFloat.add (.fin 0)

/-- Embeds Series.rolling(window).mean() with the pandas default
min_periods = window: NaN until the window is full, then the mean of the
trailing window entries. -/
def rollingMean (window : ℕ) (xs : List PFloat) : List PFloat :=
  (List.range xs.length).map (fun i =>
    if i + 1 < window then PFloat.nan
    else PFloat.div (PFloat.sum ((xs.drop (i + 1 - window)).take window)) (.fin (window : ℚ)))

/-- Trailing moving average of gains (the gain column of calculate_rsi). -/
def avg_gain (prices : List ℚ) (period : ℕ) : List PFloat :=
  rollingMean period (gainSeries prices)

/-- Trailing moving average of losses (the loss column of calculate_rsi). -/
def avg_loss (prices : List ℚ) (period : ℕ) : List PFloat :=
  rollingMean period (lossSeries prices)

/-- Embeds calculate_rsi: rs = gain / loss, rsi = 100 - 100/(1 + rs). -/
def calculate_rsi (prices : List ℚ) (period : ℕ) : List PFloat :=
  let rs := List.zipWith PFloat.div (avg_gain prices period) (avg_loss prices period)
  rs.map (fun r => PFloat.sub (.fin 100) (PFloat.div (.fin 100) (PFloat.add (.fin 1) r)))

/-!
Strategy signal generation, embedded from src/strategies/rsi_pair_strategy.py.
Indicator columns (which can hold NaN) are passed in as PFloat lists; the
integer signal/position columns are embedded as lists of integers.
-/

namespace RSIPairStrategy

/-- Per-bar value of the signal column of RSIPairStrategy.generate_signals
(src/strategies/rsi_pair_strategy.py lines 45-51).  The code first assigns
-1 on the mask rsi > rsi_threshold and afterwards assigns 1 on the mask
rsi < 100 - rsi_threshold; the later assignment overwrites the earlier one
wherever both masks hold, hence the long test is checked first here. -/
def signalAt (rsi_threshold : ℚ) (rsi : PFloat) : ℤ :=
  if PFloat.ltB rsi (.fin (100 - rsi_threshold)) then 1
  else if PFloat.ltB (.fin rsi_threshold) rsi then -1
  else 0

/-- Signal column of RSIPairStrategy.generate_signals. -/
def generate_signals (rsi_threshold : ℚ) (rsi : List PFloat) : List ℤ :=
  rsi.map (signalAt rsi_threshold)

end RSIPairStrategy

namespace VRPAdaptivePairStrategy

/-- Panic threshold of VRPAdaptivePairStrategy.generate_signals (line 106). -/
def panic_threshold : ℚ := -(3/2)

/-- Embeds the is_safe mask: vrp_z > panic_threshold.  A NaN vrp_z compares
false, so a bar whose vrp_z is not yet defined is not safe. -/
def is_safe (vz : PFloat) : Bool := PFloat.ltB (.fin panic_threshold) vz

/-- Per-bar signal of VRPAdaptivePairStrategy.generate_signals (lines
112-117): buy_rsp = (rsi_spy > threshold) and safe is assigned 1 first, then
sell_rsp = (rsi_rsp > threshold) and safe is assigned -1, overwriting the
buy assignment wherever both masks hold. -/
def signalAt (rsi_threshold : ℚ) (rsi_rsp rsi_spy vz : PFloat) : ℤ :=
  if PFloat.ltB (.fin rsi_threshold) rsi_rsp && is_safe vz then -1
  else if PFloat.ltB (.fin rsi_threshold) rsi_spy && is_safe vz then 1
  else 0

/-- Signal column over the three indicator columns. -/
def signals (rsi_threshold : ℚ) (rsi_rsp rsi_spy vrp_z : List PFloat) : List ℤ :=
  List.zipWith (fun p vz => signalAt rsi_threshold p.1 p.2 vz) (rsi_rsp.zip rsi_spy) vrp_z

/-- Embeds signal.replace(0, nan).ffill().fillna(0): carry the last nonzero
signal forward, 0 before the first nonzero signal. -/
def ffill_position : ℤ → List ℤ → List ℤ
  | _, [] => []
  | carry, x :: xs =>
      let c := if x = 0 then carry else x
      c :: ffill_position c xs

/-- Position column (lines 120 and 129): the forward-filled signal, then
the emergency override that zeroes every bar whose regime is not safe. -/
def position (rsi_threshold : ℚ) (rsi_rsp rsi_spy vrp_z : List PFloat) : List ℤ :=
  List.zipWith (fun p vz => if is_safe vz then p else 0)
    (ffill_position 0 (signals rsi_threshold rsi_rsp rsi_spy vrp_z)) vrp_z

/-- Target-quantity column (lines 123-130): base position_size, halved on
the mask vrp_z <= 0, then zeroed on every bar whose regime is not safe. -/
def target_qty (position_size : ℚ) (vrp_z : List PFloat) : List ℚ :=
  let base := vrp_z.map (fun _ => position_size)
  let halved := List.zipWith
    (fun t vz => if PFloat.leB vz (.fin 0) then position_size * (1/2) else t) base vrp_z
  List.zipWith (fun t vz => if is_safe vz then t else 0) halved vrp_z

/-- Position and target-quantity columns of
VRPAdaptivePairStrategy.generate_signals. -/
def generate_signals (rsi_threshold position_size : ℚ)
    (rsi_rsp rsi_spy vrp_z : List PFloat) : List ℤ × List ℚ :=
  (position rsi_threshold rsi_rsp rsi_spy vrp_z, target_qty position_size vrp_z)

end VRPAdaptivePairStrategy

/-!
Constructor validation of ZScorePairStrategy, embedded from
src/strategies/zscore_pair_strategy.py lines 21-35.  The spec's error
taxonomy names the construction-time failure InvalidParameter; the code
realizes it as a raised ValueError carrying the message below.
-/

/-- Construction-time failure of a strategy. -/
inductive StrategyError where
  | InvalidParameter : String → StrategyError
deriving DecidableEq, Repr

/-- Parameters stored by a successfully constructed ZScorePairStrategy. -/
structure ZScorePairStrategy where
  lookback : ℤ
  entry_z : ℚ
  exit_z : ℚ
  position_size : ℚ
deriving DecidableEq, Repr

/-- Embeds ZScorePairStrategy.__init__: the five guard clauses in source
order, then the field assignments. -/
def ZScorePairStrategy.make (lookback : ℤ) (entry_z exit_z position_size : ℚ) :
    Except StrategyError ZScorePairStrategy :=
  if lookback < 2 then .error (.InvalidParameter "lookback must be at least 2.")
  else if entry_z ≤ 0 then .error (.InvalidParameter "entry_z must be positive.")
  else if exit_z < 0 then .error (.InvalidParameter "exit_z must be non-negative.")
  else if entry_z ≤ exit_z then .error (.InvalidParameter "exit_z must be less than entry_z.")
  else if position_size ≤ 0 then .error (.InvalidParameter "position_size must be positive.")
  else .ok ⟨lookback, entry_z, exit_z, position_size⟩

/-!
Live SPY/RSP driver, embedded from src/run_live_pair.py.  The decision
logic of one iteration of the main loop (lines 111-141) and the sizing of
enter_trade (lines 82-108) are embedded; broker calls are external.
-/

namespace run_live_pair

/-- Open position of the live SPY/RSP driver. -/
inductive LivePosition where
  | short_spy_long_rsp : LivePosition
  | long_spy_short_rsp : LivePosition
deriving DecidableEq, Repr

/-- Action taken by one iteration of the main loop. -/
inductive LiveAction where
  | PANIC_EXIT : LiveAction
  | ENTER : LivePosition → ℚ → LiveAction
  | MEAN_REVERSION_EXIT : LiveAction
  | HOLD : LiveAction
deriving DecidableEq, Repr

/-- Kill-switch level VRP_PANIC_THRESHOLD (line 20). -/
def VRP_PANIC_THRESHOLD : ℚ := -(3/2)

/-- Embeds get_vrp_z_score (lines 42-61): the body computes a z-score and
any exception inside the try block is caught, returning the neutral value
0.0.  The outcome of the guarded computation is passed in as an Option:
none models a raised exception. -/
def get_vrp_z_score (attempt : Option ℚ) : ℚ :=
  match attempt with
  | some z => z
  | none => 0

/-- Embeds the adaptive sizing of enter_trade (line 88): half capital when
vrp_z <= 0, full capital otherwise. -/
def size_multiplier (vrp_z : ℚ) : ℚ := if vrp_z ≤ 0 then 1/2 else 1

/-- Embeds the decision of one main-loop iteration (lines 124-139): panic
exit if open and vrp_z at or below the kill switch, else entry (gated on a
safe vrp_z) sized by size_multiplier, else the mean-reversion exit. -/
def loop_decision (current_position : Option LivePosition) (ratio_rsi vrp_z : ℚ) :
    LiveAction :=
  if current_position.isSome ∧ vrp_z ≤ VRP_PANIC_THRESHOLD then .PANIC_EXIT
  else if current_position = none ∧ VRP_PANIC_THRESHOLD < vrp_z then
    if 70 < ratio_rsi then .ENTER .short_spy_long_rsp (size_multiplier vrp_z)
    else if ratio_rsi < 30 then .ENTER .long_spy_short_rsp (size_multiplier vrp_z)
    else .HOLD
  else if h : current_position.isSome then
    match current_position.get h with
    | .short_spy_long_rsp => if ratio_rsi < 50 then .MEAN_REVERSION_EXIT else .HOLD
    | .long_spy_short_rsp => if 50 < ratio_rsi then .MEAN_REVERSION_EXIT else .HOLD
  else .HOLD

end run_live_pair

/-!
Backtest ledgers.  Each backtest script walks the aligned bars in order;
per bar it marks the portfolio to market, appends the value to the equity
curve, and then runs its transition logic.  Bars carry the two close
prices and the precomputed ratio-RSI value for that row (the scripts drop
the not-ready rows before the loop, so the ratio_rsi fed to the loop is a
finite number).  The Python scripts log trades as strings; the embedding
keeps the classifying kind and the logged profit figure.
-/

/-- Trade-log record: the kind of the logged string plus the figure it
reports (realized profit for exit-class records, the triggering RSI for
entries). -/
inductive Trade where
  | STOP_LOSS : ℚ → Trade
  | CLOSE : ℚ → Trade
  | EXIT : ℚ → Trade
  | ENTER_SHORT_A_LONG_B : ℚ → Trade
  | ENTER_LONG_A_SHORT_B : ℚ → Trade
deriving DecidableEq, Repr

/-- Exit-class trade records (position flattened). -/
def Trade.isExitClass : Trade → Bool
  | .STOP_LOSS _ => true
  | .CLOSE _ => true
  | .EXIT _ => true
  | _ => false

/-- Entry-class trade records (position opened). -/
def Trade.isEnterClass : Trade → Bool
  | .ENTER_SHORT_A_LONG_B _ => true
  | .ENTER_LONG_A_SHORT_B _ => true
  | _ => false

/-- Python floor division a // b on floats: the floor of the true quotient. -/
def floordiv (a b : ℚ) : ℚ := (⌊a / b⌋ : ℚ)

namespace backtest_pair

/-- Strategy parameters of src/backtest_pair.py lines 44-47. -/
def RSI_OVERBOUGHT : ℚ := 70

/-- RSI oversold entry level. -/
def RSI_OVERSOLD : ℚ := 30

/-- Fraction of capital used per trade. -/
def CAPITAL_USAGE : ℚ := 9/10

/-- Stop-loss threshold: exit if the position loses 2 percent. -/
def STOP_LOSS_PCT : ℚ := 1/50

/-- Open-position tag (the current_position strings of the script). -/
inductive Position where
  | short_spy_long_rsp : Position
  | long_spy_short_rsp : Position
deriving DecidableEq, Repr

/-- Portfolio dictionary of src/backtest_pair.py lines 50-58 together with
the current_position variable. -/
structure Portfolio where
  cash : ℚ
  spy_shares : ℚ
  rsp_shares : ℚ
  equity : List ℚ
  trades : List Trade
  entry_value : ℚ
  current_position : Option Position
deriving DecidableEq, Repr

/-- Initial portfolio (lines 50-60): 100000 cash, no shares, flat. -/
def initial : Portfolio :=
  { cash := 100000, spy_shares := 0, rsp_shares := 0, equity := [], trades := [],
    entry_value := 0, current_position := none }

/-- Mark-to-market portfolio value (lines 73-75). -/
def mark_to_market (s : Portfolio) (spy_price rsp_price : ℚ) : ℚ :=
  s.cash + s.spy_shares * spy_price + s.rsp_shares * rsp_price

/-- Entry logic (lines 101-137), reached only when current_position is
None: size each leg to half of portfolio_value * CAPITAL_USAGE, short the
rich leg with the negated floored quantity, long the cheap leg with the
floored quantity, move cash by the fills, snapshot entry_value. -/
def entry_step (s : Portfolio) (portfolio_value spy_price rsp_price ratio_rsi : ℚ) :
    Portfolio :=
  let position_size := portfolio_value * CAPITAL_USAGE / 2
  if RSI_OVERBOUGHT < ratio_rsi then
    let spy_shares := -(floordiv position_size spy_price)
    let rsp_shares := floordiv position_size rsp_price
    { s with
      spy_shares := spy_shares
      rsp_shares := rsp_shares
      cash := s.cash - rsp_shares * rsp_price + -spy_shares * spy_price
      entry_value := portfolio_value
      current_position := some .short_spy_long_rsp
      trades := s.trades ++ [.ENTER_SHORT_A_LONG_B ratio_rsi] }
  else if ratio_rsi < RSI_OVERSOLD then
    let spy_shares := floordiv position_size spy_price
    let rsp_shares := -(floordiv position_size rsp_price)
    { s with
      spy_shares := spy_shares
      rsp_shares := rsp_shares
      cash := s.cash - spy_shares * spy_price + -rsp_shares * rsp_price
      entry_value := portfolio_value
      current_position := some .long_spy_short_rsp
      trades := s.trades ++ [.ENTER_LONG_A_SHORT_B ratio_rsi] }
  else s

/-- One loop iteration (lines 67-160): mark to market and append the
equity point; if in a position, first the stop-loss check (which, when it
fires, liquidates and continues to the next bar), otherwise the
mean-reversion exit; if flat, the entry logic. -/
def step (s : Portfolio) (spy_price rsp_price ratio_rsi : ℚ) : Portfolio :=
  let portfolio_value := mark_to_market s spy_price rsp_price
  let s1 : Portfolio := { s with equity := s.equity ++ [portfolio_value] }
  match s1.current_position with
  | some pos =>
      let position_pnl := portfolio_value - s1.entry_value
      let loss_pct := position_pnl / s1.entry_value
      if loss_pct < -STOP_LOSS_PCT then
        { s1 with
          cash := s1.cash + s1.spy_shares * spy_price + s1.rsp_shares * rsp_price
          trades := s1.trades ++ [.STOP_LOSS position_pnl]
          spy_shares := 0
          rsp_shares := 0
          current_position := none
          entry_value := 0 }
      else
        let should_exit : Bool :=
          match pos with
          | .short_spy_long_rsp => decide (ratio_rsi < 50)
          | .long_spy_short_rsp => decide (50 < ratio_rsi)
        if should_exit then
          { s1 with
            cash := s1.cash + s1.spy_shares * spy_price + s1.rsp_shares * rsp_price
            trades := s1.trades ++ [.CLOSE position_pnl]
            spy_shares := 0
            rsp_shares := 0
            current_position := none
            entry_value := 0 }
        else s1
  | none => entry_step s1 portfolio_value spy_price rsp_price ratio_rsi

/-- One aligned data row fed to the loop. -/
structure Bar where
  spy_price : ℚ
  rsp_price : ℚ
  ratio_rsi : ℚ
deriving DecidableEq, Repr

/-- Step on a bar record. -/
def run_bar (s : Portfolio) (b : Bar) : Portfolio :=
  step s b.spy_price b.rsp_price b.ratio_rsi

/-- State after the first i bars of a run. -/
def states (bars : List Bar) (i : ℕ) : Portfolio :=
  (bars.take i).foldl run_bar initial

/-- Full run over a bar list. -/
def run (bars : List Bar) : Portfolio := bars.foldl run_bar initial

end backtest_pair

namespace backtest_final_rsp_vgt

/-- Optimized parameters of src/backtest_final_rsp_vgt.py lines 22-25. -/
def RSI_ENTRY_HIGH : ℚ := 65

/-- RSI entry low level. -/
def RSI_ENTRY_LOW : ℚ := 30

/-- RSI exit level. -/
def RSI_EXIT : ℚ := 50

/-- Fraction of capital used per trade. -/
def CAPITAL_USAGE : ℚ := 9/10

/-- Open-position tag (the current_position strings of the script). -/
inductive Position where
  | short_rsp_long_vgt : Position
  | long_rsp_short_vgt : Position
deriving DecidableEq, Repr

/-- Portfolio dictionary of src/backtest_final_rsp_vgt.py lines 86-94
together with the current_position variable. -/
structure Portfolio where
  cash : ℚ
  rsp_shares : ℚ
  vgt_shares : ℚ
  equity : List ℚ
  trades : List Trade
  entry_value : ℚ
  current_position : Option Position
deriving DecidableEq, Repr

/-- Initial portfolio (lines 86-96): 100000 cash, no shares, flat. -/
def initial : Portfolio :=
  { cash := 100000, rsp_shares := 0, vgt_shares := 0, equity := [], trades := [],
    entry_value := 0, current_position := none }

/-- Mark-to-market portfolio value (lines 107-109). -/
def mark_to_market (s : Portfolio) (rsp_price vgt_price : ℚ) : ℚ :=
  s.cash + s.rsp_shares * rsp_price + s.vgt_shares * vgt_price

/-- Exit logic (lines 114-139): liquidate both legs and flatten when the
ratio RSI has reverted through RSI_EXIT against the open position. -/
def exit_step (s : Portfolio) (portfolio_value rsp_price vgt_price ratio_rsi : ℚ) :
    Portfolio :=
  match s.current_position with
  | some .short_rsp_long_vgt =>
      if ratio_rsi < RSI_EXIT then
        { s with
          cash := s.cash + s.rsp_shares * rsp_price + s.vgt_shares * vgt_price
          trades := s.trades ++ [.EXIT (portfolio_value - s.entry_value)]
          rsp_shares := 0
          vgt_shares := 0
          current_position := none
          entry_value := 0 }
      else s
  | some .long_rsp_short_vgt =>
      if (100 - RSI_EXIT) < ratio_rsi then
        { s with
          cash := s.cash + s.rsp_shares * rsp_price + s.vgt_shares * vgt_price
          trades := s.trades ++ [.EXIT (portfolio_value - s.entry_value)]
          rsp_shares := 0
          vgt_shares := 0
          current_position := none
          entry_value := 0 }
      else s
  | none => s

/-- Entry logic (lines 142-177), guarded on current_position being None
at the time it runs (which a same-bar exit can have just made true). -/
def entry_step (s : Portfolio) (portfolio_value rsp_price vgt_price ratio_rsi : ℚ) :
    Portfolio :=
  match s.current_position with
  | some _ => s
  | none =>
      let position_size := portfolio_value * CAPITAL_USAGE / 2
      if RSI_ENTRY_HIGH < ratio_rsi then
        let rsp_shares := -(floordiv position_size rsp_price)
        let vgt_shares := floordiv position_size vgt_price
        { s with
          rsp_shares := rsp_shares
          vgt_shares := vgt_shares
          cash := s.cash - vgt_shares * vgt_price + -rsp_shares * rsp_price
          entry_value := portfolio_value
          current_position := some .short_rsp_long_vgt
          trades := s.trades ++ [.ENTER_SHORT_A_LONG_B ratio_rsi] }
      else if ratio_rsi < RSI_ENTRY_LOW then
        let rsp_shares := floordiv position_size rsp_price
        let vgt_shares := -(floordiv position_size vgt_price)
        { s with
          rsp_shares := rsp_shares
          vgt_shares := vgt_shares
          cash := s.cash - rsp_shares * rsp_price + -vgt_shares * vgt_price
          entry_value := portfolio_value
          current_position := some .long_rsp_short_vgt
          trades := s.trades ++ [.ENTER_LONG_A_SHORT_B ratio_rsi] }
      else s

/-- One loop iteration (lines 101-177): mark to market, append the equity
point, run the exit logic, then run the entry logic on the resulting
state (so a bar that exits can re-enter in the same iteration). -/
def step (s : Portfolio) (rsp_price vgt_price ratio_rsi : ℚ) : Portfolio :=
  let portfolio_value := mark_to_market s rsp_price vgt_price
  let s1 : Portfolio := { s with equity := s.equity ++ [portfolio_value] }
  entry_step (exit_step s1 portfolio_value rsp_price vgt_price ratio_rsi)
    portfolio_value rsp_price vgt_price ratio_rsi

/-- One aligned data row fed to the loop. -/
structure Bar where
  rsp_price : ℚ
  vgt_price : ℚ
  ratio_rsi : ℚ
deriving DecidableEq, Repr

/-- Step on a bar record. -/
def run_bar (s : Portfolio) (b : Bar) : Portfolio :=
  step s b.rsp_price b.vgt_price b.ratio_rsi

/-- State after the first i bars of a run. -/
def states (bars : List Bar) (i : ℕ) : Portfolio :=
  (bars.take i).foldl run_bar initial

/-- Full run over a bar list. -/
def run (bars : List Bar) : Portfolio := bars.foldl run_bar initial

end backtest_final_rsp_vgt

/-!
Invariant predicates used by the theorems below.
-/

namespace backtest_pair

/-- Flat state carries no shares. -/
def FlatZero (s : Portfolio) : Prop :=
  s.current_position = none → s.spy_shares = 0 ∧ s.rsp_shares = 0

/-- Pure-spread invariant: flat exactly when both legs are zero, and an
open position holds opposite-signed legs. -/
def SpreadInv (s : Portfolio) : Prop :=
  (s.current_position = none ↔ (s.spy_shares = 0 ∧ s.rsp_shares = 0)) ∧
  (s.current_position ≠ none → s.spy_shares * s.rsp_shares < 0)

/-- Sizing proviso: prices are positive and, on any bar that starts flat,
each leg price is at most the per-leg dollar target, so the floored leg
quantities of an entry are at least one share. -/
def EntrySized (bars : List Bar) : Prop :=
  ∀ (i : ℕ) (hi : i < bars.length),
    0 < bars[i].spy_price ∧ 0 < bars[i].rsp_price ∧
    ((states bars i).current_position = none →
      bars[i].spy_price ≤
        mark_to_market (states bars i) bars[i].spy_price bars[i].rsp_price *
          CAPITAL_USAGE / 2 ∧
      bars[i].rsp_price ≤
        mark_to_market (states bars i) bars[i].spy_price bars[i].rsp_price *
          CAPITAL_USAGE / 2)

end backtest_pair

namespace backtest_final_rsp_vgt

/-- Flat state carries no shares. -/
def FlatZero (s : Portfolio) : Prop :=
  s.current_position = none → s.rsp_shares = 0 ∧ s.vgt_shares = 0

/-- Pure-spread invariant: flat exactly when both legs are zero, and an
open position holds opposite-signed legs. -/
def SpreadInv (s : Portfolio) : Prop :=
  (s.current_position = none ↔ (s.rsp_shares = 0 ∧ s.vgt_shares = 0)) ∧
  (s.current_position ≠ none → s.rsp_shares * s.vgt_shares < 0)

/-- Sizing proviso: prices are positive and each leg price is at most the
per-leg dollar target of that bar, so the floored leg quantities of any
entry (also one following a same-bar exit) are at least one share. -/
def EntrySized (bars : List Bar) : Prop :=
  ∀ (i : ℕ) (hi : i < bars.length),
    0 < bars[i].rsp_price ∧ 0 < bars[i].vgt_price ∧
    bars[i].rsp_price ≤
      mark_to_market (states bars i) bars[i].rsp_price bars[i].vgt_price *
        CAPITAL_USAGE / 2 ∧
    bars[i].vgt_price ≤
      mark_to_market (states bars i) bars[i].rsp_price bars[i].vgt_price *
        CAPITAL_USAGE / 2

end backtest_final_rsp_vgt

/-!
Helper lemmas: floor division and forward filling.
-/

theorem one_le_floordiv (a b : ℚ) (hb : 0 < b) (h : b ≤ a) : 1 ≤ floordiv a b := by
  unfold floordiv
  have h1 : (1:ℚ) ≤ a / b := (one_le_div hb).mpr h
  exact_mod_cast Int.le_floor.mpr (by exact_mod_cast h1)

theorem floordiv_mul_le (a b : ℚ) (hb : 0 < b) : floordiv a b * b ≤ a := by
  unfold floordiv
  calc (⌊a / b⌋ : ℚ) * b ≤ (a / b) * b :=
        mul_le_mul_of_nonneg_right (Int.floor_le _) hb.le
    _ = a := div_mul_cancel₀ a hb.ne'

namespace VRPAdaptivePairStrategy

theorem length_ffill_position (c : ℤ) (xs : List ℤ) :
    (ffill_position c xs).length = xs.length := by
  induction xs generalizing c with
  | nil => rfl
  | cons x xs ih => simp [ffill_position, ih]

theorem length_signals (t : ℚ) (a b v : List PFloat)
    (ha : a.length = v.length) (hb : b.length = v.length) :
    (signals t a b v).length = v.length := by
  simp [signals, ha, hb]

theorem leB_eq_false_of_safe_gtB (x : PFloat) (hs : is_safe x = true)
    (hg : PFloat.gtB x (.fin 0) = true) : PFloat.leB x (.fin 0) = false := by
  cases x with
  | nan => simp [is_safe, PFloat.ltB] at hs
  | pinf => rfl
  | ninf => simp [PFloat.gtB, PFloat.ltB] at hg
  | fin a =>
      simp only [PFloat.gtB, PFloat.ltB, decide_eq_true_eq] at hg
      simp [PFloat.leB, not_le.mpr hg]

end VRPAdaptivePairStrategy

/-!
Step lemmas for the aggressive SPY/RSP backtest: the equity point appended
per bar, preservation of the flat-means-no-shares invariant, conservation
of mark-to-market value across the bar's transition, and preservation of
the pure-spread invariant under the sizing proviso.
-/

namespace backtest_pair

theorem step_equity (s : Portfolio) (pA pB r : ℚ) :
    (step s pA pB r).equity = s.equity ++ [mark_to_market s pA pB] := by
  unfold step entry_step
  cases s.current_position <;> dsimp only <;> repeat' split
  all_goals rfl

theorem entry_step_flatZero (s : Portfolio) (pv pA pB r : ℚ) :
    FlatZero s → FlatZero (entry_step s pv pA pB r) := by
  intro h
  unfold entry_step FlatZero
  repeat' split
  all_goals intro hc
  · exact absurd hc (by simp)
  · exact absurd hc (by simp)
  · exact h hc

theorem step_flatZero (s : Portfolio) (pA pB r : ℚ) :
    FlatZero s → FlatZero (step s pA pB r) := by
  intro h
  unfold step
  cases hcp : s.current_position with
  | none => exact entry_step_flatZero _ _ _ _ _ (fun _ => h hcp)
  | some pos =>
      dsimp only
      split
      · intro _; exact ⟨rfl, rfl⟩
      · split
        · intro _; exact ⟨rfl, rfl⟩
        · intro hc; exact absurd hc (by simp)

theorem step_value (s : Portfolio) (pA pB r : ℚ) (h : FlatZero s) :
    mark_to_market (step s pA pB r) pA pB = mark_to_market s pA pB := by
  unfold step
  cases hcp : s.current_position with
  | none =>
      obtain ⟨h1, h2⟩ := h hcp
      unfold entry_step
      repeat' split
      · simp only [mark_to_market, h1, h2]; ring
      · simp only [mark_to_market, h1, h2]; ring
      · rfl
  | some pos =>
      dsimp only
      split
      · simp only [mark_to_market]; ring
      · split
        · simp only [mark_to_market]; ring
        · rfl

theorem foldl_flatZero (l : List Bar) (s : Portfolio) (h : FlatZero s) :
    FlatZero (l.foldl run_bar s) := by
  induction l generalizing s with
  | nil => exact h
  | cons b l ih => exact ih _ (step_flatZero _ _ _ _ h)

theorem states_flatZero (bars : List Bar) (i : ℕ) : FlatZero (states bars i) :=
  foldl_flatZero _ _ (fun _ => ⟨rfl, rfl⟩)

theorem states_succ (bars : List Bar) (i : ℕ) (hi : i < bars.length) :
    states bars (i+1) = run_bar (states bars i) bars[i] := by
  unfold states
  rw [← List.take_concat_get' bars i hi, List.foldl_append]
  rfl

theorem step_spreadInv (s : Portfolio) (pA pB r : ℚ) (hA : 0 < pA) (hB : 0 < pB)
    (hsz : s.current_position = none →
      pA ≤ mark_to_market s pA pB * CAPITAL_USAGE / 2 ∧
      pB ≤ mark_to_market s pA pB * CAPITAL_USAGE / 2)
    (h : SpreadInv s) : SpreadInv (step s pA pB r) := by
  obtain ⟨hiff, hsign⟩ := h
  unfold step
  cases hcp : s.current_position with
  | some pos =>
      dsimp only
      split
      · exact ⟨by simp, by simp⟩
      · split
        · exact ⟨by simp, by simp⟩
        · constructor
          · constructor
            · intro hc; exact absurd hc (by simp)
            · intro hz
              exact absurd (hiff.mpr hz) (by simp [hcp])
          · intro _
            exact hsign (by simp [hcp])
  | none =>
      obtain ⟨hszA, hszB⟩ := hsz hcp
      have h1A : 1 ≤ floordiv (mark_to_market s pA pB * CAPITAL_USAGE / 2) pA :=
        one_le_floordiv _ _ hA hszA
      have h1B : 1 ≤ floordiv (mark_to_market s pA pB * CAPITAL_USAGE / 2) pB :=
        one_le_floordiv _ _ hB hszB
      unfold entry_step
      dsimp only
      split
      · constructor
        · constructor
          · intro hc; exact absurd hc (by simp)
          · intro ⟨hz, _⟩
            exact absurd hz (by simp; nlinarith)
        · intro _
          show -floordiv (mark_to_market s pA pB * CAPITAL_USAGE / 2) pA *
            floordiv (mark_to_market s pA pB * CAPITAL_USAGE / 2) pB < 0
          nlinarith
      · split
        · constructor
          · constructor
            · intro hc; exact absurd hc (by simp)
            · intro ⟨hz, _⟩
              exact absurd hz (by nlinarith)
          · intro _
            show floordiv (mark_to_market s pA pB * CAPITAL_USAGE / 2) pA *
              -floordiv (mark_to_market s pA pB * CAPITAL_USAGE / 2) pB < 0
            nlinarith
        · refine ⟨⟨fun _ => hiff.mp hcp, fun _ => rfl⟩, fun hc => absurd rfl hc⟩

theorem states_spreadInv (bars : List Bar) (hsz : EntrySized bars) :
    ∀ i, i ≤ bars.length → SpreadInv (states bars i) := by
  intro i
  induction i with
  | zero => intro _; exact ⟨by simp [states, initial], by simp [states, initial]⟩
  | succ i ih =>
      intro hle
      have hi : i < bars.length := by omega
      rw [states_succ bars i hi]
      obtain ⟨hA, hB, hs⟩ := hsz i hi
      exact step_spreadInv _ _ _ _ hA hB hs (ih (by omega))

end backtest_pair

/-!
Step lemmas for the RSP/VGT backtest.  Its per-bar transition is the exit
logic followed by the entry logic on the resulting state, so each phase
gets its own lemmas before they are composed.
-/

namespace backtest_final_rsp_vgt

theorem exit_step_equity (s : Portfolio) (pv pR pV r : ℚ) :
    (exit_step s pv pR pV r).equity = s.equity := by
  unfold exit_step
  cases s.current_position with
  | none => rfl
  | some pos => cases pos <;> dsimp only <;> split <;> rfl

theorem entry_step_equity (s : Portfolio) (pv pR pV r : ℚ) :
    (entry_step s pv pR pV r).equity = s.equity := by
  unfold entry_step
  cases s.current_position with
  | none =>
      dsimp only
      repeat' split
      all_goals rfl
  | some pos => rfl

theorem exit_step_value (s : Portfolio) (pv pR pV r : ℚ) :
    mark_to_market (exit_step s pv pR pV r) pR pV = mark_to_market s pR pV := by
  unfold exit_step
  cases s.current_position with
  | none => rfl
  | some pos =>
      cases pos <;> dsimp only <;> split
      · simp only [mark_to_market]; ring
      · rfl
      · simp only [mark_to_market]; ring
      · rfl

theorem exit_step_flatZero (s : Portfolio) (pv pR pV r : ℚ) (h : FlatZero s) :
    FlatZero (exit_step s pv pR pV r) := by
  unfold exit_step
  cases hcp : s.current_position with
  | none => exact fun _ => h hcp
  | some pos =>
      cases pos <;> dsimp only <;> split
      · intro _; exact ⟨rfl, rfl⟩
      · intro hc; exact absurd hc (by simp [hcp])
      · intro _; exact ⟨rfl, rfl⟩
      · intro hc; exact absurd hc (by simp [hcp])

theorem fv_entry_step_flatZero (s : Portfolio) (pv pR pV r : ℚ) (h : FlatZero s) :
    FlatZero (entry_step s pv pR pV r) := by
  unfold entry_step
  cases hcp : s.current_position with
  | some pos => exact fun hc => absurd hc (by simp [hcp])
  | none =>
      dsimp only
      repeat' split
      all_goals intro hc
      · exact absurd hc (by simp)
      · exact absurd hc (by simp)
      · exact h hcp

theorem entry_step_value (s : Portfolio) (pv pR pV r : ℚ) (h : FlatZero s) :
    mark_to_market (entry_step s pv pR pV r) pR pV = mark_to_market s pR pV := by
  unfold entry_step
  cases hcp : s.current_position with
  | some pos => rfl
  | none =>
      obtain ⟨h1, h2⟩ := h hcp
      dsimp only
      repeat' split
      · simp only [mark_to_market, h1, h2]; ring
      · simp only [mark_to_market, h1, h2]; ring
      · rfl

theorem fv_step_equity (s : Portfolio) (pR pV r : ℚ) :
    (step s pR pV r).equity = s.equity ++ [mark_to_market s pR pV] := by
  unfold step
  rw [entry_step_equity, exit_step_equity]

theorem fv_step_flatZero (s : Portfolio) (pR pV r : ℚ) (h : FlatZero s) :
    FlatZero (step s pR pV r) := by
  unfold step
  exact fv_entry_step_flatZero _ _ _ _ _ (exit_step_flatZero _ _ _ _ _ (fun hc => h hc))

theorem fv_step_value (s : Portfolio) (pR pV r : ℚ) (h : FlatZero s) :
    mark_to_market (step s pR pV r) pR pV = mark_to_market s pR pV := by
  unfold step
  dsimp only
  have hfz1 : FlatZero { s with equity := s.equity ++ [mark_to_market s pR pV] } :=
    fun hc => h hc
  rw [entry_step_value _ _ _ _ _ (exit_step_flatZero _ _ _ _ _ hfz1), exit_step_value]
  rfl

theorem fv_foldl_flatZero (l : List Bar) (s : Portfolio) (h : FlatZero s) :
    FlatZero (l.foldl run_bar s) := by
  induction l generalizing s with
  | nil => exact h
  | cons b l ih => exact ih _ (fv_step_flatZero _ _ _ _ h)

theorem fv_states_flatZero (bars : List Bar) (i : ℕ) : FlatZero (states bars i) :=
  fv_foldl_flatZero _ _ (fun _ => ⟨rfl, rfl⟩)

theorem fv_states_succ (bars : List Bar) (i : ℕ) (hi : i < bars.length) :
    states bars (i+1) = run_bar (states bars i) bars[i] := by
  unfold states
  rw [← List.take_concat_get' bars i hi, List.foldl_append]
  rfl

theorem exit_step_spreadInv (s : Portfolio) (pv pR pV r : ℚ) (h : SpreadInv s) :
    SpreadInv (exit_step s pv pR pV r) := by
  obtain ⟨hiff, hsign⟩ := h
  unfold exit_step
  cases hcp : s.current_position with
  | none => exact ⟨hiff, fun hc => hsign hc⟩
  | some pos =>
      cases pos <;> dsimp only <;> split
      · exact ⟨by simp, by simp⟩
      · exact ⟨by rw [hcp] at hiff ⊢; exact hiff, by rw [hcp] at hsign ⊢; exact hsign⟩
      · exact ⟨by simp, by simp⟩
      · exact ⟨by rw [hcp] at hiff ⊢; exact hiff, by rw [hcp] at hsign ⊢; exact hsign⟩

theorem entry_step_spreadInv (s : Portfolio) (pv pR pV r : ℚ)
    (h1R : 1 ≤ floordiv (pv * CAPITAL_USAGE / 2) pR)
    (h1V : 1 ≤ floordiv (pv * CAPITAL_USAGE / 2) pV)
    (h : SpreadInv s) : SpreadInv (entry_step s pv pR pV r) := by
  obtain ⟨hiff, hsign⟩ := h
  unfold entry_step
  cases hcp : s.current_position with
  | some pos => exact ⟨by rw [hcp] at hiff ⊢; exact hiff, by rw [hcp] at hsign ⊢; exact hsign⟩
  | none =>
      dsimp only
      split
      · constructor
        · constructor
          · intro hc; exact absurd hc (by simp)
          · intro ⟨hz, _⟩
            exact absurd hz (by simp; nlinarith)
        · intro _
          show -floordiv (pv * CAPITAL_USAGE / 2) pR * floordiv (pv * CAPITAL_USAGE / 2) pV < 0
          nlinarith
      · split
        · constructor
          · constructor
            · intro hc; exact absurd hc (by simp)
            · intro ⟨hz, _⟩
              exact absurd hz (by nlinarith)
          · intro _
            show floordiv (pv * CAPITAL_USAGE / 2) pR *
              -floordiv (pv * CAPITAL_USAGE / 2) pV < 0
            nlinarith
        · refine ⟨⟨fun _ => hiff.mp hcp, fun _ => hcp⟩, fun hc => absurd hcp hc⟩

theorem fv_step_spreadInv (s : Portfolio) (pR pV r : ℚ) (hR : 0 < pR) (hV : 0 < pV)
    (hszR : pR ≤ mark_to_market s pR pV * CAPITAL_USAGE / 2)
    (hszV : pV ≤ mark_to_market s pR pV * CAPITAL_USAGE / 2)
    (h : SpreadInv s) : SpreadInv (step s pR pV r) := by
  unfold step
  dsimp only
  have hs1 : SpreadInv { s with equity := s.equity ++ [mark_to_market s pR pV] } := h
  exact entry_step_spreadInv _ _ _ _ _
    (one_le_floordiv _ _ hR hszR) (one_le_floordiv _ _ hV hszV)
    (exit_step_spreadInv _ _ _ _ _ hs1)

theorem fv_states_spreadInv (bars : List Bar) (hsz : EntrySized bars) :
    ∀ i, i ≤ bars.length → SpreadInv (states bars i) := by
  intro i
  induction i with
  | zero => intro _; exact ⟨by simp [states, initial], by simp [states, initial]⟩
  | succ i ih =>
      intro hle
      have hi : i < bars.length := by omega
      rw [fv_states_succ bars i hi]
      obtain ⟨hR, hV, hsR, hsV⟩ := hsz i hi
      exact fv_step_spreadInv _ _ _ _ hR hV hsR hsV (ih (by omega))

theorem exit_step_trades (s : Portfolio) (pv pR pV r : ℚ) :
    ∃ t : Option Trade,
      (exit_step s pv pR pV r).trades = s.trades ++ t.toList ∧
      (∀ tr, t = some tr → tr.isExitClass = true) := by
  unfold exit_step
  cases s.current_position with
  | none => exact ⟨none, by simp, by simp⟩
  | some pos =>
      cases pos <;> dsimp only <;> split
      · exact ⟨some (.EXIT (pv - s.entry_value)), rfl,
          by intro tr htr; simp at htr; subst htr; rfl⟩
      · exact ⟨none, by simp, by simp⟩
      · exact ⟨some (.EXIT (pv - s.entry_value)), rfl,
          by intro tr htr; simp at htr; subst htr; rfl⟩
      · exact ⟨none, by simp, by simp⟩

theorem entry_step_trades (s : Portfolio) (pv pR pV r : ℚ) :
    ∃ t : Option Trade,
      (entry_step s pv pR pV r).trades = s.trades ++ t.toList ∧
      (∀ tr, t = some tr → tr.isEnterClass = true) := by
  unfold entry_step
  cases s.current_position with
  | some pos => exact ⟨none, by simp, by simp⟩
  | none =>
      dsimp only
      split
      · exact ⟨some (.ENTER_SHORT_A_LONG_B r), rfl,
          by intro tr htr; simp at htr; subst htr; rfl⟩
      · split
        · exact ⟨some (.ENTER_LONG_A_SHORT_B r), rfl,
            by intro tr htr; simp at htr; subst htr; rfl⟩
        · exact ⟨none, by simp, by simp⟩

end backtest_final_rsp_vgt

/-- C1: in both backtests, the equity point recorded at every bar of a run
equals cash + qty_A * price_A + qty_B * price_B of the state entering the
bar at that bar's prices, and the transition applied on the bar (entry,
mean-reversion exit, or stop-loss liquidation) leaves the mark-to-market
portfolio value at those prices unchanged: the cash paid or received
exactly offsets the market value of the shares acquired or liquidated. -/
theorem C1_equity_identity_and_value_conservation :
    (∀ (bars : List backtest_pair.Bar) (i : ℕ) (hi : i < bars.length),
      (backtest_pair.states bars (i+1)).equity =
        (backtest_pair.states bars i).equity ++
          [backtest_pair.mark_to_market (backtest_pair.states bars i)
            bars[i].spy_price bars[i].rsp_price] ∧
      backtest_pair.mark_to_market (backtest_pair.states bars (i+1))
          bars[i].spy_price bars[i].rsp_price =
        backtest_pair.mark_to_market (backtest_pair.states bars i)
          bars[i].spy_price bars[i].rsp_price) ∧
    (∀ (bars : List backtest_final_rsp_vgt.Bar) (i : ℕ) (hi : i < bars.length),
      (backtest_final_rsp_vgt.states bars (i+1)).equity =
        (backtest_final_rsp_vgt.states bars i).equity ++
          [backtest_final_rsp_vgt.mark_to_market (backtest_final_rsp_vgt.states bars i)
            bars[i].rsp_price bars[i].vgt_price] ∧
      backtest_final_rsp_vgt.mark_to_market (backtest_final_rsp_vgt.states bars (i+1))
          bars[i].rsp_price bars[i].vgt_price =
        backtest_final_rsp_vgt.mark_to_market (backtest_final_rsp_vgt.states bars i)
          bars[i].rsp_price bars[i].vgt_price) := by
  constructor
  · intro bars i hi
    rw [backtest_pair.states_succ bars i hi]
    exact ⟨backtest_pair.step_equity _ _ _ _,
      backtest_pair.step_value _ _ _ _ (backtest_pair.states_flatZero bars i)⟩
  · intro bars i hi
    rw [backtest_final_rsp_vgt.fv_states_succ bars i hi]
    exact ⟨backtest_final_rsp_vgt.fv_step_equity _ _ _ _,
      backtest_final_rsp_vgt.fv_step_value _ _ _ _ (backtest_final_rsp_vgt.fv_states_flatZero bars i)⟩

/-- Witness for C1: one-bar runs of both backtests at concrete prices. -/
theorem C1_witness :
    ((backtest_pair.states [⟨100, 50, 80⟩] 1).equity =
        (backtest_pair.states [⟨100, 50, 80⟩] 0).equity ++
          [backtest_pair.mark_to_market (backtest_pair.states [⟨100, 50, 80⟩] 0) 100 50] ∧
      backtest_pair.mark_to_market (backtest_pair.states [⟨100, 50, 80⟩] 1) 100 50 =
        backtest_pair.mark_to_market (backtest_pair.states [⟨100, 50, 80⟩] 0) 100 50) ∧
    ((backtest_final_rsp_vgt.states [⟨100, 200, 70⟩] 1).equity =
        (backtest_final_rsp_vgt.states [⟨100, 200, 70⟩] 0).equity ++
          [backtest_final_rsp_vgt.mark_to_market
            (backtest_final_rsp_vgt.states [⟨100, 200, 70⟩] 0) 100 200] ∧
      backtest_final_rsp_vgt.mark_to_market
          (backtest_final_rsp_vgt.states [⟨100, 200, 70⟩] 1) 100 200 =
        backtest_final_rsp_vgt.mark_to_market
          (backtest_final_rsp_vgt.states [⟨100, 200, 70⟩] 0) 100 200) :=
  ⟨C1_equity_identity_and_value_conservation.1 [⟨100, 50, 80⟩] 0 (by norm_num),
   C1_equity_identity_and_value_conservation.2 [⟨100, 200, 70⟩] 0 (by norm_num)⟩

/-- C2 counterexample: in the RSP/VGT backtest a single bar can both exit
and re-enter.  Starting flat with RSI 20 the run enters long on bar one;
on bar two with RSI 70 the exit fires (70 is above the exit level 50) and
the entry logic then fires again on the same bar (70 is above the entry
level 65), so bar two appends an EXIT and an ENTER record and ends with an
open short position, not flat. -/
theorem C2_counterexample_exit_and_reentry_same_bar :
    (backtest_final_rsp_vgt.states [⟨100, 200, 20⟩, ⟨100, 200, 70⟩] 1).trades =
      [.ENTER_LONG_A_SHORT_B 20] ∧
    (backtest_final_rsp_vgt.run [⟨100, 200, 20⟩, ⟨100, 200, 70⟩]).trades =
      [.ENTER_LONG_A_SHORT_B 20, .EXIT 0, .ENTER_SHORT_A_LONG_B 70] ∧
    (backtest_final_rsp_vgt.run [⟨100, 200, 20⟩, ⟨100, 200, 70⟩]).current_position =
      some .short_rsp_long_vgt := by
  refine ⟨?_, ?_, ?_⟩ <;>
    norm_num [backtest_final_rsp_vgt.states, backtest_final_rsp_vgt.run,
      backtest_final_rsp_vgt.run_bar, backtest_final_rsp_vgt.step,
      backtest_final_rsp_vgt.exit_step, backtest_final_rsp_vgt.entry_step,
      backtest_final_rsp_vgt.mark_to_market, backtest_final_rsp_vgt.initial,
      backtest_final_rsp_vgt.RSI_ENTRY_HIGH, backtest_final_rsp_vgt.RSI_ENTRY_LOW,
      backtest_final_rsp_vgt.RSI_EXIT, backtest_final_rsp_vgt.CAPITAL_USAGE, floordiv]

/-- C2 amended: in backtest_pair.py each bar fires at most one transition
and a bar that appends an exit-class record (CLOSE or STOP_LOSS) ends
flat; in backtest_final_rsp_vgt.py each bar fires at most two transitions,
and when two fire the first is an exit and the second is a same-bar
re-entry. -/
theorem C2_amended_transitions_per_bar :
    (∀ (s : backtest_pair.Portfolio) (pA pB r : ℚ),
      ∃ t : Option Trade,
        (backtest_pair.step s pA pB r).trades = s.trades ++ t.toList ∧
        ∀ tr, t = some tr → tr.isExitClass = true →
          (backtest_pair.step s pA pB r).current_position = none) ∧
    (∀ (s : backtest_final_rsp_vgt.Portfolio) (pR pV r : ℚ),
      ∃ ts : List Trade,
        (backtest_final_rsp_vgt.step s pR pV r).trades = s.trades ++ ts ∧
        ts.length ≤ 2 ∧
        ∀ t1 t2, ts = [t1, t2] → t1.isExitClass = true ∧ t2.isEnterClass = true) := by
  constructor
  · intro s pA pB r
    unfold backtest_pair.step backtest_pair.entry_step
    cases s.current_position with
    | some pos =>
        dsimp only
        split
        · exact ⟨some (.STOP_LOSS (backtest_pair.mark_to_market s pA pB - s.entry_value)),
            rfl, fun tr htr _ => rfl⟩
        · split
          · exact ⟨some (.CLOSE (backtest_pair.mark_to_market s pA pB - s.entry_value)),
              rfl, fun tr htr _ => rfl⟩
          · exact ⟨none, by simp, by simp⟩
    | none =>
        dsimp only
        split
        · refine ⟨some (.ENTER_SHORT_A_LONG_B r), rfl, ?_⟩
          intro tr htr hex
          simp at htr
          subst htr
          simp [Trade.isExitClass] at hex
        · split
          · refine ⟨some (.ENTER_LONG_A_SHORT_B r), rfl, ?_⟩
            intro tr htr hex
            simp at htr
            subst htr
            simp [Trade.isExitClass] at hex
          · exact ⟨none, by simp, by simp⟩
  · intro s pR pV r
    unfold backtest_final_rsp_vgt.step
    dsimp only
    obtain ⟨t1, h1, h1e⟩ := backtest_final_rsp_vgt.exit_step_trades
      { s with equity := s.equity ++ [backtest_final_rsp_vgt.mark_to_market s pR pV] }
      (backtest_final_rsp_vgt.mark_to_market s pR pV) pR pV r
    obtain ⟨t2, h2, h2e⟩ := backtest_final_rsp_vgt.entry_step_trades
      (backtest_final_rsp_vgt.exit_step
        { s with equity := s.equity ++ [backtest_final_rsp_vgt.mark_to_market s pR pV] }
        (backtest_final_rsp_vgt.mark_to_market s pR pV) pR pV r)
      (backtest_final_rsp_vgt.mark_to_market s pR pV) pR pV r
    refine ⟨t1.toList ++ t2.toList, ?_, ?_, ?_⟩
    · rw [h2, h1, List.append_assoc]
    · cases t1 <;> cases t2 <;> simp
    · intro u1 u2 heq
      cases t1 with
      | none => cases t2 <;> simp at heq
      | some a =>
          cases t2 with
          | none => simp at heq
          | some b =>
              simp at heq
              obtain ⟨ha, hb⟩ := heq
              exact ⟨ha ▸ h1e a rfl, hb ▸ h2e b rfl⟩

/-- Witness for C2: a concrete bar of the aggressive backtest. -/
theorem C2_witness :
    ∃ t : Option Trade,
      (backtest_pair.step backtest_pair.initial 1 1 50).trades =
        backtest_pair.initial.trades ++ t.toList ∧
      ∀ tr, t = some tr → tr.isExitClass = true →
        (backtest_pair.step backtest_pair.initial 1 1 50).current_position = none :=
  C2_amended_transitions_per_bar.1 backtest_pair.initial 1 1 50

/-- C3 counterexample: on the strictly increasing price series 1..14 with
period 14, the trailing moving average of losses at index 13 is exactly 0,
yet calculate_rsi yields the numeric value 100 there (rs is +infinity, so
100 - 100/(1 + rs) = 100), not NaN. -/
theorem C3_counterexample_rsi_100_on_zero_loss :
    (avg_loss [1,2,3,4,5,6,7,8,9,10,11,12,13,14] 14)[13]? = some (.fin 0) ∧
    (calculate_rsi [1,2,3,4,5,6,7,8,9,10,11,12,13,14] 14)[13]? = some (.fin 100) := by
  constructor
  · norm_num [avg_loss, rollingMean, lossSeries, seriesDiff, PFloat.sum, PFloat.add,
      PFloat.div, PFloat.neg, PFloat.ltB, List.range_succ]
  · norm_num [calculate_rsi, avg_gain, avg_loss, rollingMean, gainSeries, lossSeries,
      seriesDiff, PFloat.sum, PFloat.add, PFloat.div, PFloat.neg, PFloat.sub, PFloat.ltB,
      List.range_succ]

/-- C3 amended: at a bar whose trailing moving average of losses is zero,
calculate_rsi yields NaN exactly when the trailing moving average of gains
is also zero (0/0); when the average gain is positive, rs is +infinity and
the bar gets the numeric RSI value 100.  Neither case crashes. -/
theorem C3_amended_rsi_at_zero_loss :
    ∀ (prices : List ℚ) (period i : ℕ),
    (avg_loss prices period)[i]? = some (.fin 0) →
    ((avg_gain prices period)[i]? = some (.fin 0) →
      (calculate_rsi prices period)[i]? = some .nan) ∧
    (∀ q : ℚ, 0 < q → (avg_gain prices period)[i]? = some (.fin q) →
      (calculate_rsi prices period)[i]? = some (.fin 100)) := by
  intro prices period i hl
  constructor
  · intro hg
    simp [calculate_rsi, List.getElem?_map, List.getElem?_zipWith', hl, hg,
      PFloat.div, PFloat.add, PFloat.sub, PFloat.neg]
  · intro q hq hg
    simp [calculate_rsi, List.getElem?_map, List.getElem?_zipWith', hl, hg,
      PFloat.div, PFloat.add, PFloat.sub, PFloat.neg, hq.ne', not_lt.mpr hq.le]

/-- Witness for C3: the increasing series 1..14 instantiates the positive
average-gain case of the amended statement. -/
theorem C3_amended_witness :
    (avg_loss [1,2,3,4,5,6,7,8,9,10,11,12,13,14] 14)[13]? = some (.fin 0) ∧
    (0:ℚ) < 13/14 ∧
    (avg_gain [1,2,3,4,5,6,7,8,9,10,11,12,13,14] 14)[13]? = some (.fin (13/14)) ∧
    (calculate_rsi [1,2,3,4,5,6,7,8,9,10,11,12,13,14] 14)[13]? = some (.fin 100) := by
  have hl : (avg_loss [1,2,3,4,5,6,7,8,9,10,11,12,13,14] 14)[13]? = some (.fin 0) := by
    norm_num [avg_loss, rollingMean, lossSeries, seriesDiff, PFloat.sum, PFloat.add,
      PFloat.div, PFloat.neg, PFloat.ltB, List.range_succ]
  have hg : (avg_gain [1,2,3,4,5,6,7,8,9,10,11,12,13,14] 14)[13]? = some (.fin (13/14)) := by
    norm_num [avg_gain, rollingMean, gainSeries, seriesDiff, PFloat.sum, PFloat.add,
      PFloat.div, PFloat.neg, PFloat.ltB, List.range_succ]
  exact ⟨hl, by norm_num, hg,
    (C3_amended_rsi_at_zero_loss [1,2,3,4,5,6,7,8,9,10,11,12,13,14] 14 13 hl).2 (13/14)
      (by norm_num) hg⟩

/-- C4 counterexample: with both prices at 50000 and RSI 80, the entry of
the aggressive backtest floors both leg quantities to zero (the per-leg
dollar target 45000 is below either price), leaving an open position whose
legs are both zero: the state is not flat although both share counts are
zero, and the legs do not have opposite signs. -/
theorem C4_counterexample_open_position_with_zero_legs :
    (backtest_pair.run [⟨50000, 50000, 80⟩]).current_position =
      some .short_spy_long_rsp ∧
    (backtest_pair.run [⟨50000, 50000, 80⟩]).spy_shares = 0 ∧
    (backtest_pair.run [⟨50000, 50000, 80⟩]).rsp_shares = 0 := by
  norm_num [backtest_pair.run, backtest_pair.run_bar, backtest_pair.step,
    backtest_pair.entry_step, backtest_pair.mark_to_market, backtest_pair.initial,
    backtest_pair.RSI_OVERBOUGHT, backtest_pair.RSI_OVERSOLD, backtest_pair.CAPITAL_USAGE,
    backtest_pair.STOP_LOSS_PCT, floordiv]

/-- C4 amended: in both backtests, at every bar of a run whose bars
satisfy the sizing proviso (positive prices no larger than the per-leg
dollar target portfolio_value * CAPITAL_USAGE / 2, so every entry fills at
least one share per leg), the position state is FLAT if and only if both
leg share counts are zero, and an open position has strictly
opposite-signed legs. -/
theorem C4_amended_spread_invariant :
    (∀ (bars : List backtest_pair.Bar), backtest_pair.EntrySized bars →
      ∀ i, i ≤ bars.length → backtest_pair.SpreadInv (backtest_pair.states bars i)) ∧
    (∀ (bars : List backtest_final_rsp_vgt.Bar), backtest_final_rsp_vgt.EntrySized bars →
      ∀ i, i ≤ bars.length →
        backtest_final_rsp_vgt.SpreadInv (backtest_final_rsp_vgt.states bars i)) :=
  ⟨fun bars h i hi => backtest_pair.states_spreadInv bars h i hi,
   fun bars h i hi => backtest_final_rsp_vgt.fv_states_spreadInv bars h i hi⟩

/-- Witness for C4: a one-bar run with ordinary prices enters a spread of
-450 SPY against +900 RSP and satisfies the invariant. -/
theorem C4_witness :
    backtest_pair.EntrySized [⟨100, 50, 80⟩] ∧
    backtest_pair.SpreadInv (backtest_pair.states [⟨100, 50, 80⟩] 1) := by
  have hsz : backtest_pair.EntrySized [⟨100, 50, 80⟩] := by
    intro i hi
    have hz : i = 0 := by simp at hi; omega
    subst hz
    refine ⟨by norm_num, by norm_num, fun _ => ?_⟩
    norm_num [backtest_pair.states, backtest_pair.initial, backtest_pair.mark_to_market,
      backtest_pair.CAPITAL_USAGE]
  exact ⟨hsz, C4_amended_spread_invariant.1 [⟨100, 50, 80⟩] hsz 1 (by norm_num)⟩

/-- C5: on every ENTER of either backtest, each leg is sized from
position_size_dollars = portfolio_value * CAPITAL_USAGE / 2; the long leg
gets the floored quantity and the short leg the negated floor; cash drops
by the long leg's cost and rises by the short sale's proceeds; entry_value
is set to the portfolio value passed in (the mark-to-market immediately
before the fills); and the dollar value deployed on each leg is at most
the per-leg target, never more. -/
theorem C5_enter_sizing_and_cash_flow :
    (∀ (s : backtest_pair.Portfolio) (portfolio_value spy_price rsp_price ratio_rsi : ℚ),
      0 < spy_price → 0 < rsp_price →
      (backtest_pair.RSI_OVERBOUGHT < ratio_rsi →
        backtest_pair.entry_step s portfolio_value spy_price rsp_price ratio_rsi =
          { s with
            spy_shares :=
              -(floordiv (portfolio_value * backtest_pair.CAPITAL_USAGE / 2) spy_price)
            rsp_shares :=
              floordiv (portfolio_value * backtest_pair.CAPITAL_USAGE / 2) rsp_price
            cash := s.cash -
              floordiv (portfolio_value * backtest_pair.CAPITAL_USAGE / 2) rsp_price *
                rsp_price +
              floordiv (portfolio_value * backtest_pair.CAPITAL_USAGE / 2) spy_price *
                spy_price
            entry_value := portfolio_value
            current_position := some .short_spy_long_rsp
            trades := s.trades ++ [.ENTER_SHORT_A_LONG_B ratio_rsi] }) ∧
      (ratio_rsi < backtest_pair.RSI_OVERSOLD →
        backtest_pair.entry_step s portfolio_value spy_price rsp_price ratio_rsi =
          { s with
            spy_shares :=
              floordiv (portfolio_value * backtest_pair.CAPITAL_USAGE / 2) spy_price
            rsp_shares :=
              -(floordiv (portfolio_value * backtest_pair.CAPITAL_USAGE / 2) rsp_price)
            cash := s.cash -
              floordiv (portfolio_value * backtest_pair.CAPITAL_USAGE / 2) spy_price *
                spy_price +
              floordiv (portfolio_value * backtest_pair.CAPITAL_USAGE / 2) rsp_price *
                rsp_price
            entry_value := portfolio_value
            current_position := some .long_spy_short_rsp
            trades := s.trades ++ [.ENTER_LONG_A_SHORT_B ratio_rsi] }) ∧
      floordiv (portfolio_value * backtest_pair.CAPITAL_USAGE / 2) spy_price * spy_price ≤
        portfolio_value * backtest_pair.CAPITAL_USAGE / 2 ∧
      floordiv (portfolio_value * backtest_pair.CAPITAL_USAGE / 2) rsp_price * rsp_price ≤
        portfolio_value * backtest_pair.CAPITAL_USAGE / 2) ∧
    (∀ (s : backtest_final_rsp_vgt.Portfolio) (portfolio_value rsp_price vgt_price ratio_rsi : ℚ),
      0 < rsp_price → 0 < vgt_price → s.current_position = none →
      (backtest_final_rsp_vgt.RSI_ENTRY_HIGH < ratio_rsi →
        backtest_final_rsp_vgt.entry_step s portfolio_value rsp_price vgt_price ratio_rsi =
          { s with
            rsp_shares :=
              -(floordiv (portfolio_value * backtest_final_rsp_vgt.CAPITAL_USAGE / 2) rsp_price)
            vgt_shares :=
              floordiv (portfolio_value * backtest_final_rsp_vgt.CAPITAL_USAGE / 2) vgt_price
            cash := s.cash -
              floordiv (portfolio_value * backtest_final_rsp_vgt.CAPITAL_USAGE / 2) vgt_price *
                vgt_price +
              floordiv (portfolio_value * backtest_final_rsp_vgt.CAPITAL_USAGE / 2) rsp_price *
                rsp_price
            entry_value := portfolio_value
            current_position := some .short_rsp_long_vgt
            trades := s.trades ++ [.ENTER_SHORT_A_LONG_B ratio_rsi] }) ∧
      (ratio_rsi < backtest_final_rsp_vgt.RSI_ENTRY_LOW →
        backtest_final_rsp_vgt.entry_step s portfolio_value rsp_price vgt_price ratio_rsi =
          { s with
            rsp_shares :=
              floordiv (portfolio_value * backtest_final_rsp_vgt.CAPITAL_USAGE / 2) rsp_price
            vgt_shares :=
              -(floordiv (portfolio_value * backtest_final_rsp_vgt.CAPITAL_USAGE / 2) vgt_price)
            cash := s.cash -
              floordiv (portfolio_value * backtest_final_rsp_vgt.CAPITAL_USAGE / 2) rsp_price *
                rsp_price +
              floordiv (portfolio_value * backtest_final_rsp_vgt.CAPITAL_USAGE / 2) vgt_price *
                vgt_price
            entry_value := portfolio_value
            current_position := some .long_rsp_short_vgt
            trades := s.trades ++ [.ENTER_LONG_A_SHORT_B ratio_rsi] }) ∧
      floordiv (portfolio_value * backtest_final_rsp_vgt.CAPITAL_USAGE / 2) rsp_price *
          rsp_price ≤ portfolio_value * backtest_final_rsp_vgt.CAPITAL_USAGE / 2 ∧
      floordiv (portfolio_value * backtest_final_rsp_vgt.CAPITAL_USAGE / 2) vgt_price *
          vgt_price ≤ portfolio_value * backtest_final_rsp_vgt.CAPITAL_USAGE / 2) := by
  constructor
  · intro s pv pA pB r hA hB
    refine ⟨?_, ?_, floordiv_mul_le _ _ hA, floordiv_mul_le _ _ hB⟩
    · intro h
      unfold backtest_pair.entry_step
      rw [if_pos h]
      simp only [neg_neg]
    · intro h
      have hno : ¬ backtest_pair.RSI_OVERBOUGHT < r := by
        simp only [backtest_pair.RSI_OVERBOUGHT, backtest_pair.RSI_OVERSOLD] at h ⊢
        linarith
      unfold backtest_pair.entry_step
      rw [if_neg hno, if_pos h]
      simp only [neg_neg]
  · intro s pv pR pV r hR hV hflat
    refine ⟨?_, ?_, floordiv_mul_le _ _ hR, floordiv_mul_le _ _ hV⟩
    · intro h
      unfold backtest_final_rsp_vgt.entry_step
      rw [hflat]
      dsimp only
      rw [if_pos h]
      simp only [neg_neg]
    · intro h
      have hno : ¬ backtest_final_rsp_vgt.RSI_ENTRY_HIGH < r := by
        simp only [backtest_final_rsp_vgt.RSI_ENTRY_HIGH,
          backtest_final_rsp_vgt.RSI_ENTRY_LOW] at h ⊢
        linarith
      unfold backtest_final_rsp_vgt.entry_step
      rw [hflat]
      dsimp only
      rw [if_neg hno, if_pos h]
      simp only [neg_neg]

/-- Witness for C5: the short-spread entry from the initial portfolio at
prices 100 and 50 with RSI 80. -/
theorem C5_witness :
    (0:ℚ) < 100 ∧ (0:ℚ) < 50 ∧ backtest_pair.RSI_OVERBOUGHT < (80:ℚ) ∧
    backtest_pair.entry_step backtest_pair.initial 100000 100 50 80 =
      { backtest_pair.initial with
        spy_shares := -(floordiv (100000 * backtest_pair.CAPITAL_USAGE / 2) 100)
        rsp_shares := floordiv (100000 * backtest_pair.CAPITAL_USAGE / 2) 50
        cash := backtest_pair.initial.cash -
          floordiv (100000 * backtest_pair.CAPITAL_USAGE / 2) 50 * 50 +
          floordiv (100000 * backtest_pair.CAPITAL_USAGE / 2) 100 * 100
        entry_value := 100000
        current_position := some .short_spy_long_rsp
        trades := backtest_pair.initial.trades ++ [.ENTER_SHORT_A_LONG_B 80] } ∧
    floordiv (100000 * backtest_pair.CAPITAL_USAGE / 2) 100 * 100 ≤
      100000 * backtest_pair.CAPITAL_USAGE / 2 ∧
    floordiv (100000 * backtest_pair.CAPITAL_USAGE / 2) 50 * 50 ≤
      100000 * backtest_pair.CAPITAL_USAGE / 2 := by
  have h := C5_enter_sizing_and_cash_flow.1 backtest_pair.initial 100000 100 50 80
    (by norm_num) (by norm_num)
  exact ⟨by norm_num, by norm_num, by norm_num [backtest_pair.RSI_OVERBOUGHT],
    h.1 (by norm_num [backtest_pair.RSI_OVERBOUGHT]), h.2.2.1, h.2.2.2⟩

/-- C6: in the aggressive backtest, whenever a position is open with a
positive entry_value and the bar's loss fraction
(current value - entry_value) / entry_value is below -STOP_LOSS_PCT, the
bar liquidates both legs at the bar's prices (cash rises by
qty_A * price_A + qty_B * price_B), records one STOP_LOSS trade whose
profit figure is portfolio value minus entry_value, resets both legs and
entry_value to zero and ends flat - for every RSI value, so the stop-loss
preempts the mean-reversion exit and any entry on that bar. -/
theorem C6_stop_loss_precedence :
    ∀ (s : backtest_pair.Portfolio) (pos : backtest_pair.Position) (pA pB r : ℚ),
      s.current_position = some pos →
      0 < s.entry_value →
      (backtest_pair.mark_to_market s pA pB - s.entry_value) / s.entry_value <
        -backtest_pair.STOP_LOSS_PCT →
      backtest_pair.step s pA pB r =
        { s with
          equity := s.equity ++ [backtest_pair.mark_to_market s pA pB]
          cash := s.cash + s.spy_shares * pA + s.rsp_shares * pB
          trades := s.trades ++
            [.STOP_LOSS (backtest_pair.mark_to_market s pA pB - s.entry_value)]
          spy_shares := 0
          rsp_shares := 0
          current_position := none
          entry_value := 0 } := by
  intro s pos pA pB r hs hev hloss
  unfold backtest_pair.step
  dsimp only
  rw [hs]
  dsimp only
  rw [if_pos hloss]

/-- Witness for C6: a long spread of 10 SPY against -20 RSP entered at
value 2000 marks to 900 at prices 50/30, a 55 percent loss, and the bar
stop-loss liquidates it. -/
theorem C6_witness :
    (backtest_pair.Portfolio.mk 1000 10 (-20) [] [] 2000
        (some .long_spy_short_rsp)).current_position = some .long_spy_short_rsp ∧
    (0:ℚ) < 2000 ∧
    backtest_pair.mark_to_market
      (backtest_pair.Portfolio.mk 1000 10 (-20) [] [] 2000
        (some .long_spy_short_rsp)) 50 30 = 900 ∧
    (backtest_pair.mark_to_market
        (backtest_pair.Portfolio.mk 1000 10 (-20) [] [] 2000
          (some .long_spy_short_rsp)) 50 30 - 2000) / 2000 <
      -backtest_pair.STOP_LOSS_PCT ∧
    backtest_pair.step
        (backtest_pair.Portfolio.mk 1000 10 (-20) [] [] 2000
          (some .long_spy_short_rsp)) 50 30 55 =
      { backtest_pair.Portfolio.mk 1000 10 (-20) [] [] 2000
          (some .long_spy_short_rsp) with
        equity := [] ++ [backtest_pair.mark_to_market
          (backtest_pair.Portfolio.mk 1000 10 (-20) [] [] 2000
            (some .long_spy_short_rsp)) 50 30]
        cash := 1000 + 10 * 50 + (-20) * 30
        trades := [] ++ [.STOP_LOSS (backtest_pair.mark_to_market
          (backtest_pair.Portfolio.mk 1000 10 (-20) [] [] 2000
            (some .long_spy_short_rsp)) 50 30 - 2000)]
        spy_shares := 0
        rsp_shares := 0
        current_position := none
        entry_value := 0 } := by
  have hmtm : backtest_pair.mark_to_market
      (backtest_pair.Portfolio.mk 1000 10 (-20) [] [] 2000
        (some .long_spy_short_rsp)) 50 30 = 900 := by
    norm_num [backtest_pair.mark_to_market]
  have hloss : (backtest_pair.mark_to_market
      (backtest_pair.Portfolio.mk 1000 10 (-20) [] [] 2000
        (some .long_spy_short_rsp)) 50 30 - 2000) / 2000 <
      -backtest_pair.STOP_LOSS_PCT := by
    rw [hmtm]
    norm_num [backtest_pair.STOP_LOSS_PCT]
  exact ⟨rfl, by norm_num, hmtm, hloss,
    C6_stop_loss_precedence _ .long_spy_short_rsp 50 30 55 rfl (by norm_num) hloss⟩

/-- C7: in VRPAdaptivePairStrategy.generate_signals, every bar whose
regime is not safe (vrp_z at or below -1.5, which includes bars whose
vrp_z is NaN, since a NaN comparison is false) has position and target
quantity forced to 0 whatever the two RSI columns hold; on safe bars the
target quantity is half of position_size when vrp_z is at most 0 and the
full position_size when vrp_z is above 0. -/
theorem C7_panic_regime_override :
    ∀ (rsi_threshold position_size : ℚ) (rsi_rsp rsi_spy vrp_z : List PFloat),
      rsi_rsp.length = vrp_z.length → rsi_spy.length = vrp_z.length →
      ∀ (i : ℕ) (hi : i < vrp_z.length),
    (VRPAdaptivePairStrategy.is_safe vrp_z[i] = false →
      (VRPAdaptivePairStrategy.position rsi_threshold rsi_rsp rsi_spy vrp_z)[i]? =
        some 0 ∧
      (VRPAdaptivePairStrategy.target_qty position_size vrp_z)[i]? = some 0) ∧
    (VRPAdaptivePairStrategy.is_safe vrp_z[i] = true →
      (PFloat.leB vrp_z[i] (.fin 0) = true →
        (VRPAdaptivePairStrategy.target_qty position_size vrp_z)[i]? =
          some (position_size * (1/2))) ∧
      (PFloat.gtB vrp_z[i] (.fin 0) = true →
        (VRPAdaptivePairStrategy.target_qty position_size vrp_z)[i]? =
          some position_size)) := by
  intro t ps a b v ha hb i hi
  have hlp : (VRPAdaptivePairStrategy.position t a b v).length = v.length := by
    simp [VRPAdaptivePairStrategy.position, VRPAdaptivePairStrategy.length_ffill_position,
      VRPAdaptivePairStrategy.length_signals t a b v ha hb]
  have hlq : (VRPAdaptivePairStrategy.target_qty ps v).length = v.length := by
    simp [VRPAdaptivePairStrategy.target_qty]
  have hif : i < (VRPAdaptivePairStrategy.ffill_position 0
      (VRPAdaptivePairStrategy.signals t a b v)).length := by
    rw [VRPAdaptivePairStrategy.length_ffill_position,
      VRPAdaptivePairStrategy.length_signals t a b v ha hb]
    exact hi
  have hpos : ∀ h : i < (VRPAdaptivePairStrategy.position t a b v).length,
      (VRPAdaptivePairStrategy.position t a b v)[i] =
        if VRPAdaptivePairStrategy.is_safe v[i] then
          (VRPAdaptivePairStrategy.ffill_position 0
            (VRPAdaptivePairStrategy.signals t a b v))[i]
        else 0 := by
    intro h
    simp [VRPAdaptivePairStrategy.position, List.getElem_zipWith]
  have hq : ∀ h : i < (VRPAdaptivePairStrategy.target_qty ps v).length,
      (VRPAdaptivePairStrategy.target_qty ps v)[i] =
        if VRPAdaptivePairStrategy.is_safe v[i] then
          (if PFloat.leB v[i] (.fin 0) then ps * (1/2) else ps)
        else 0 := by
    intro h
    simp [VRPAdaptivePairStrategy.target_qty, List.getElem_zipWith, List.getElem_map]
  constructor
  · intro hsafe
    constructor
    · rw [List.getElem?_eq_getElem (by omega : i < (VRPAdaptivePairStrategy.position t a b v).length)]
      rw [hpos (by omega)]
      simp [hsafe]
    · rw [List.getElem?_eq_getElem (by omega : i < (VRPAdaptivePairStrategy.target_qty ps v).length)]
      rw [hq (by omega)]
      simp [hsafe]
  · intro hsafe
    constructor
    · intro hle
      rw [List.getElem?_eq_getElem (by omega : i < (VRPAdaptivePairStrategy.target_qty ps v).length)]
      rw [hq (by omega)]
      simp [hsafe, hle]
    · intro hgt
      rw [List.getElem?_eq_getElem (by omega : i < (VRPAdaptivePairStrategy.target_qty ps v).length)]
      rw [hq (by omega)]
      simp [hsafe, VRPAdaptivePairStrategy.leB_eq_false_of_safe_gtB _ hsafe hgt]

/-- Witness for C7: a NaN bar is overridden to zero and a safe bar with
positive vrp_z gets the full size. -/
theorem C7_witness :
    (VRPAdaptivePairStrategy.is_safe PFloat.nan = false ∧
      (VRPAdaptivePairStrategy.position 70 [.fin 80, .fin 80] [.fin 80, .fin 80]
          [.nan, .fin 1])[0]? = some 0 ∧
      (VRPAdaptivePairStrategy.target_qty 100 [.nan, .fin 1])[0]? = some 0) ∧
    (VRPAdaptivePairStrategy.is_safe (.fin 1) = true ∧
      PFloat.gtB (.fin 1) (.fin 0) = true ∧
      (VRPAdaptivePairStrategy.target_qty 100 [.nan, .fin 1])[1]? = some 100) := by
  have h0 := C7_panic_regime_override 70 100 [.fin 80, .fin 80] [.fin 80, .fin 80]
    [.nan, .fin 1] rfl rfl 0 (by norm_num)
  have h1 := C7_panic_regime_override 70 100 [.fin 80, .fin 80] [.fin 80, .fin 80]
    [.nan, .fin 1] rfl rfl 1 (by norm_num)
  have hsafe1 : VRPAdaptivePairStrategy.is_safe (PFloat.fin 1) = true := by
    norm_num [VRPAdaptivePairStrategy.is_safe, VRPAdaptivePairStrategy.panic_threshold,
      PFloat.ltB]
  have hgt1 : PFloat.gtB (.fin 1) (.fin 0) = true := by
    norm_num [PFloat.gtB, PFloat.ltB]
  exact ⟨⟨rfl, (h0.1 rfl).1, (h0.1 rfl).2⟩, ⟨hsafe1, hgt1, (h1.2 hsafe1).2 hgt1⟩⟩

/-- C8: constructing a ZScorePairStrategy fails with InvalidParameter
exactly when lookback < 2, entry_z at most 0, exit_z negative, exit_z at
least entry_z, or position_size at most 0; the call with lookback 60,
entry_z 2 and exit_z 2 (default position_size 10) fails with the exit_z
message; and a valid construction stores the given parameters unchanged. -/
theorem C8_zscore_constructor_validation :
    (∀ (lookback : ℤ) (entry_z exit_z position_size : ℚ),
      (∃ m, ZScorePairStrategy.make lookback entry_z exit_z position_size =
          .error (.InvalidParameter m)) ↔
        (lookback < 2 ∨ entry_z ≤ 0 ∨ exit_z < 0 ∨ entry_z ≤ exit_z ∨ position_size ≤ 0)) ∧
    (∀ (lookback : ℤ) (entry_z exit_z position_size : ℚ),
      ¬ (lookback < 2 ∨ entry_z ≤ 0 ∨ exit_z < 0 ∨ entry_z ≤ exit_z ∨ position_size ≤ 0) →
      ZScorePairStrategy.make lookback entry_z exit_z position_size =
        .ok ⟨lookback, entry_z, exit_z, position_size⟩) ∧
    ZScorePairStrategy.make 60 2 2 10 =
      .error (.InvalidParameter "exit_z must be less than entry_z.") := by
  refine ⟨?_, ?_, ?_⟩
  · intro l e x p
    constructor
    · intro ⟨m, hm⟩
      by_contra hc
      push_neg at hc
      obtain ⟨h1, h2, h3, h4, h5⟩ := hc
      simp only [ZScorePairStrategy.make, if_neg (not_lt.mpr h1), if_neg (not_le.mpr h2),
        if_neg (not_lt.mpr h3), if_neg (not_le.mpr h4), if_neg (not_le.mpr h5)] at hm
      exact Except.noConfusion hm
    · intro h
      unfold ZScorePairStrategy.make
      rcases h with h | h | h | h | h
      · exact ⟨_, by rw [if_pos h]⟩
      all_goals {
        by_cases h1 : l < 2
        · exact ⟨_, by rw [if_pos h1]⟩
        · by_cases h2 : e ≤ 0
          · exact ⟨_, by rw [if_neg h1, if_pos h2]⟩
          · by_cases h3 : x < 0
            · exact ⟨_, by rw [if_neg h1, if_neg h2, if_pos h3]⟩
            · by_cases h4 : e ≤ x
              · exact ⟨_, by rw [if_neg h1, if_neg h2, if_neg h3, if_pos h4]⟩
              · by_cases h5 : p ≤ 0
                · exact ⟨_, by rw [if_neg h1, if_neg h2, if_neg h3, if_neg h4, if_pos h5]⟩
                · first
                  | exact absurd h h1 | exact absurd h h2 | exact absurd h h3
                  | exact absurd h h4 | exact absurd h h5 }
  · intro l e x p h
    push_neg at h
    obtain ⟨h1, h2, h3, h4, h5⟩ := h
    unfold ZScorePairStrategy.make
    rw [if_neg (by omega), if_neg (by linarith), if_neg (by linarith),
      if_neg (by linarith), if_neg (by linarith)]
  · norm_num [ZScorePairStrategy.make]

/-- Witness for C8: the valid construction with exit_z 1/2 succeeds and
stores its parameters. -/
theorem C8_witness :
    ¬ ((60:ℤ) < 2 ∨ (2:ℚ) ≤ 0 ∨ (1/2:ℚ) < 0 ∨ (2:ℚ) ≤ 1/2 ∨ (10:ℚ) ≤ 0) ∧
    ZScorePairStrategy.make 60 2 (1/2) 10 = .ok ⟨60, 2, 1/2, 10⟩ :=
  ⟨by norm_num, C8_zscore_constructor_validation.2.1 60 2 (1/2) 10 (by norm_num)⟩

open run_live_pair in
/-- C9: a failed VRP z-score computation in the live SPY/RSP driver falls
back to the neutral value 0, which is strictly above the panic threshold
-1.5, so it never triggers the panic flatten of an open position and never
blocks a new entry; but since 0 is at most 0 the fragile-regime multiplier
1/2 applies, halving the entry size. -/
theorem C9_vrp_failure_is_neutral :
    get_vrp_z_score none = 0 ∧
    VRP_PANIC_THRESHOLD < get_vrp_z_score none ∧
    (∀ p ratio_rsi, loop_decision (some p) ratio_rsi (get_vrp_z_score none) ≠ .PANIC_EXIT) ∧
    (∀ ratio_rsi, 70 < ratio_rsi →
      loop_decision none ratio_rsi (get_vrp_z_score none) =
        .ENTER .short_spy_long_rsp (1/2)) ∧
    (∀ ratio_rsi, ratio_rsi < 30 →
      loop_decision none ratio_rsi (get_vrp_z_score none) =
        .ENTER .long_spy_short_rsp (1/2)) ∧
    size_multiplier (get_vrp_z_score none) = 1/2 := by
  refine ⟨rfl, by norm_num [get_vrp_z_score, VRP_PANIC_THRESHOLD], ?_, ?_, ?_,
    by norm_num [get_vrp_z_score, size_multiplier]⟩
  · intro p ratio_rsi
    cases p <;> by_cases h50 : ratio_rsi < 50 <;> by_cases h50' : 50 < ratio_rsi <;>
      norm_num [loop_decision, get_vrp_z_score, VRP_PANIC_THRESHOLD, h50, h50'] <;> simp
  · intro ratio_rsi h
    norm_num [loop_decision, get_vrp_z_score, VRP_PANIC_THRESHOLD, size_multiplier, h]
  · intro ratio_rsi h
    have h70 : ¬ (70 < ratio_rsi) := by linarith
    norm_num [loop_decision, get_vrp_z_score, VRP_PANIC_THRESHOLD, size_multiplier, h, h70]

/-- Witness for C9: with a failed VRP computation, an open position at RSI
40 is not panic-flattened, RSI 80 enters short at half size, and RSI 20
enters long at half size. -/
theorem C9_witness :
    run_live_pair.loop_decision (some .short_spy_long_rsp) 40
        (run_live_pair.get_vrp_z_score none) ≠ .PANIC_EXIT ∧
    ((70:ℚ) < 80 ∧
      run_live_pair.loop_decision none 80 (run_live_pair.get_vrp_z_score none) =
        .ENTER .short_spy_long_rsp (1/2)) ∧
    ((20:ℚ) < 30 ∧
      run_live_pair.loop_decision none 20 (run_live_pair.get_vrp_z_score none) =
        .ENTER .long_spy_short_rsp (1/2)) :=
  ⟨C9_vrp_failure_is_neutral.2.2.1 .short_spy_long_rsp 40,
   ⟨by norm_num, C9_vrp_failure_is_neutral.2.2.2.1 80 (by norm_num)⟩,
   ⟨by norm_num, C9_vrp_failure_is_neutral.2.2.2.2.1 20 (by norm_num)⟩⟩

/-- C10: in RSIPairStrategy.generate_signals, when rsi_threshold is below
50 the short mask (rsi above the threshold) and the long mask (rsi below
100 minus the threshold) can overlap, and because the long assignment is
applied after the short one, every bar in the overlap gets the long signal
1. -/
theorem C10_long_signal_wins_overlap :
    (∀ rsi_threshold : ℚ, rsi_threshold < 50 →
      ∃ r : ℚ, rsi_threshold < r ∧ r < 100 - rsi_threshold) ∧
    (∀ (rsi_threshold : ℚ) (rsi : List PFloat) (i : ℕ) (r : ℚ),
      rsi[i]? = some (.fin r) → rsi_threshold < r → r < 100 - rsi_threshold →
      (RSIPairStrategy.generate_signals rsi_threshold rsi)[i]? = some 1) := by
  constructor
  · intro t ht
    exact ⟨50, ht, by linarith⟩
  · intro t rsi i r hget h1 h2
    simp [RSIPairStrategy.generate_signals, List.getElem?_map, hget,
      RSIPairStrategy.signalAt, PFloat.ltB, h2]

/-- Witness for C10: threshold 40, RSI 50 satisfies both masks and the
emitted signal is 1. -/
theorem C10_witness :
    ((40:ℚ) < 50 ∧ ∃ r : ℚ, 40 < r ∧ r < 100 - 40) ∧
    ([PFloat.fin 50][0]? = some (.fin 50) ∧ (40:ℚ) < 50 ∧ (50:ℚ) < 100 - 40 ∧
      (RSIPairStrategy.generate_signals 40 [.fin 50])[0]? = some 1) :=
  ⟨⟨by norm_num, C10_long_signal_wins_overlap.1 40 (by norm_num)⟩,
   ⟨rfl, by norm_num, by norm_num,
    C10_long_signal_wins_overlap.2 40 [.fin 50] 0 50 rfl (by norm_num) (by norm_num)⟩⟩
